import Mathlib

/-!
Verification development for `maturity_assessment.py`.

Text is modelled as `List Char` (one entry per Unicode code point, matching
Python string indexing on the ASCII data this program handles).  Machine
floats are modelled as rationals `ℚ`; the survey scores involved are small
decimal values for which float and rational arithmetic agree.
-/

/-- Python whitespace test: membership in the regex class `\s` and the default
strip set, restricted to the ASCII whitespace characters. -/
def isPySpace (c : Char) : Bool :=
  c == ' ' || c == '\t' || c == '\n' || c == '\r' || c == '\x0b' || c == '\x0c'

/-- Model of Python `str.strip()`: drop leading and trailing whitespace. -/
def pyStrip (l : List Char) : List Char :=
  ((l.dropWhile isPySpace).reverse.dropWhile isPySpace).reverse

/-- Model of Python `str.lstrip(chars)`: drop leading characters belonging to
the given set. -/
def pyLstripSet (eat : List Char) (l : List Char) : List Char :=
  l.dropWhile (fun c => eat.contains c)

/-- Model of Python `str.lower()` on ASCII data: map the letters `A`..`Z`
(code points 65..90) to their lowercase forms, leave everything else alone. -/
def pyLowerChar (c : Char) : Char :=
  if 65 ≤ c.toNat ∧ c.toNat ≤ 90 then Char.ofNat (c.toNat + 32) else c

/-- Model of Python `str.replace(old, new)` for a single-character pattern
`old`: every occurrence of the character is substituted, which for a
one-character pattern is exactly a per-character expansion. -/
def replaceChar (old : Char) (new : List Char) (l : List Char) : List Char :=
  l.flatMap fun c => if c = old then new else [c]

/-- Characters kept by the filter `re.sub(r'[^a-z0-9\s]', '', ...)` in
`clean_column_name` (source lines 82-89): lowercase letters, digits and
whitespace. -/
def isKeptChar (c : Char) : Bool :=
  (97 ≤ c.toNat && c.toNat ≤ 122) || (48 ≤ c.toNat && c.toNat ≤ 57) || isPySpace c

/-- Lowercase ASCII letter or digit. -/
def isLowerAlnumChar (c : Char) : Bool :=
  (97 ≤ c.toNat && c.toNat ≤ 122) || (48 ≤ c.toNat && c.toNat ≤ 57)

/-- Model of `re.sub(r'\s+', ' ', ...)`: collapse every maximal run of
whitespace characters to a single space.  The boolean flag records whether the
previous character belonged to a whitespace run. -/
def collapseWs : List Char → Bool → List Char
  | [], _ => []
  | c :: cs, prev =>
    if isPySpace c then
      if prev then collapseWs cs true else ' ' :: collapseWs cs true
    else c :: collapseWs cs false

/-- Embedding of `clean_column_name` (source lines 82-89): lowercase, turn
hyphens into spaces, delete characters outside `[a-z0-9\s]`, collapse
whitespace runs to single spaces, strip, then replace spaces by
underscores. -/
def clean_column_name (l : List Char) : List Char :=
  (pyStrip (collapseWs
    ((replaceChar '-' [' '] (l.map pyLowerChar)).filter isKeptChar) false)).map
    fun c => if c = ' ' then '_' else c

/-! Character-class facts about the output of `clean_column_name`. -/

theorem isPySpace_toNat {c : Char} (h : isPySpace c = true) :
    c.toNat = 32 ∨ c.toNat = 9 ∨ c.toNat = 10 ∨ c.toNat = 13 ∨
    c.toNat = 11 ∨ c.toNat = 12 := by
  simp only [isPySpace, Bool.or_eq_true, beq_iff_eq] at h
  rcases h with ((((h | h) | h) | h) | h) | h <;> subst h <;> decide

theorem not_isPySpace_of_isLowerAlnumChar {c : Char}
    (h : isLowerAlnumChar c = true) : isPySpace c = false := by
  by_contra hcon
  rw [Bool.not_eq_false] at hcon
  simp only [isLowerAlnumChar, Bool.or_eq_true, Bool.and_eq_true,
    decide_eq_true_eq] at h
  rcases isPySpace_toNat hcon with h32 | h9 | h10 | h13 | h11 | h12 <;> omega

theorem mem_collapseWs {c : Char} :
    ∀ (l : List Char) (prev : Bool), c ∈ collapseWs l prev →
      (c ∈ l ∧ isPySpace c = false) ∨ c = ' '
  | [], _, h => by simp [collapseWs] at h
  | a :: as, prev, h => by
    by_cases ha : isPySpace a = true
    · have hrec : c ∈ collapseWs as true → (c ∈ as ∧ isPySpace c = false) ∨ c = ' ' :=
        mem_collapseWs as true
      by_cases hp : prev = true
      · simp only [collapseWs, ha, hp, if_true] at h
        rcases hrec h with ⟨h1, h2⟩ | h1
        · exact Or.inl ⟨List.mem_cons_of_mem _ h1, h2⟩
        · exact Or.inr h1
      · rw [Bool.not_eq_true] at hp
        simp only [collapseWs, ha, hp, if_true, Bool.false_eq_true, if_false,
          List.mem_cons] at h
        rcases h with h1 | h1
        · exact Or.inr h1
        · rcases hrec h1 with ⟨h2, h3⟩ | h2
          · exact Or.inl ⟨List.mem_cons_of_mem _ h2, h3⟩
          · exact Or.inr h2
    · rw [Bool.not_eq_true] at ha
      simp only [collapseWs, ha, Bool.false_eq_true, if_false,
        List.mem_cons] at h
      rcases h with h1 | h1
      · exact Or.inl ⟨h1 ▸ List.mem_cons_self a as, h1 ▸ ha⟩
      · rcases mem_collapseWs as false h1 with ⟨h2, h3⟩ | h2
        · exact Or.inl ⟨List.mem_cons_of_mem _ h2, h3⟩
        · exact Or.inr h2

theorem mem_pyStrip {c : Char} {l : List Char} (h : c ∈ pyStrip l) : c ∈ l := by
  unfold pyStrip at h
  rw [List.mem_reverse] at h
  have h1 := (List.dropWhile_sublist (l := (l.dropWhile isPySpace).reverse)
    isPySpace).mem h
  rw [List.mem_reverse] at h1
  exact (List.dropWhile_sublist (l := l) isPySpace).mem h1

theorem mem_clean_column_name {c : Char} {l : List Char}
    (h : c ∈ clean_column_name l) :
    isLowerAlnumChar c = true ∨ c = '_' := by
  unfold clean_column_name at h
  rw [List.mem_map] at h
  obtain ⟨b, hb, hbc⟩ := h
  rcases mem_collapseWs _ _ (mem_pyStrip hb) with ⟨h3, hsp⟩ | h3
  · rw [List.mem_filter] at h3
    have hkept := h3.2
    simp only [isKeptChar, Bool.or_eq_true] at hkept
    have halnum : isLowerAlnumChar b = true := by
      rcases hkept with (hk | hk) | hk
      · simp [isLowerAlnumChar, hk]
      · simp [isLowerAlnumChar, hk]
      · rw [hk] at hsp; exact absurd hsp (by simp)
    have hbne : b ≠ ' ' := by
      intro hcon
      rw [hcon] at hsp
      exact absurd hsp (by decide)
    rw [if_neg hbne] at hbc
    exact Or.inl (hbc ▸ halnum)
  · subst h3
    simp only [if_true] at hbc
    exact Or.inr hbc.symm

theorem isLowerAlnumChar_toNat {c : Char} (h : isLowerAlnumChar c = true) :
    (97 ≤ c.toNat ∧ c.toNat ≤ 122) ∨ (48 ≤ c.toNat ∧ c.toNat ≤ 57) := by
  simpa only [isLowerAlnumChar, Bool.or_eq_true, Bool.and_eq_true,
    decide_eq_true_eq] using h

theorem map_pyLowerChar_eq_self {m : List Char}
    (hm : ∀ c ∈ m, isLowerAlnumChar c = true) : m.map pyLowerChar = m := by
  have : ∀ c ∈ m, pyLowerChar c = id c := by
    intro c hc
    have := isLowerAlnumChar_toNat (hm c hc)
    simp only [pyLowerChar, id]
    rw [if_neg]
    omega
  exact (List.map_congr_left this).trans (List.map_id m)

theorem replaceChar_eq_self {old : Char} {new m : List Char}
    (hm : ∀ c ∈ m, c ≠ old) : replaceChar old new m = m := by
  induction m with
  | nil => rfl
  | cons a as ih =>
    simp only [replaceChar, List.flatMap_cons] at *
    rw [if_neg (hm a (List.mem_cons_self a as)), ih fun c hc =>
      hm c (List.mem_cons_of_mem _ hc)]
    rfl

theorem collapseWs_eq_self {m : List Char}
    (hm : ∀ c ∈ m, isPySpace c = false) : collapseWs m false = m := by
  induction m with
  | nil => rfl
  | cons a as ih =>
    simp only [collapseWs, hm a (List.mem_cons_self a as), Bool.false_eq_true,
      if_false]
    rw [ih fun c hc => hm c (List.mem_cons_of_mem _ hc)]

theorem dropWhile_eq_self_of_all {p : Char → Bool} {m : List Char}
    (hm : ∀ c ∈ m, p c = false) : m.dropWhile p = m := by
  cases m with
  | nil => rfl
  | cons a as =>
    rw [List.dropWhile_cons, if_neg]
    simp [hm a (List.mem_cons_self a as)]

theorem pyStrip_eq_self {m : List Char}
    (hm : ∀ c ∈ m, isPySpace c = false) : pyStrip m = m := by
  unfold pyStrip
  rw [dropWhile_eq_self_of_all hm, dropWhile_eq_self_of_all
    (fun c hc => hm c (List.mem_reverse.mp hc)), List.reverse_reverse]

theorem clean_column_name_fixes_alnum {m : List Char}
    (hm : ∀ c ∈ m, isLowerAlnumChar c = true) : clean_column_name m = m := by
  unfold clean_column_name
  rw [map_pyLowerChar_eq_self hm]
  rw [replaceChar_eq_self (fun c hc => by
    intro hcon
    have := isLowerAlnumChar_toNat (hm c hc)
    subst hcon
    revert this
    decide)]
  rw [List.filter_eq_self.mpr (fun c hc => by
    have := hm c hc
    simp only [isKeptChar, isLowerAlnumChar, Bool.or_eq_true] at *
    tauto)]
  rw [collapseWs_eq_self (fun c hc => not_isPySpace_of_isLowerAlnumChar (hm c hc))]
  rw [pyStrip_eq_self (fun c hc => not_isPySpace_of_isLowerAlnumChar (hm c hc))]
  have : ∀ c ∈ m, (fun c => if c = ' ' then '_' else c) c = id c := by
    intro c hc
    have := isLowerAlnumChar_toNat (hm c hc)
    simp only [id]
    rw [if_neg]
    intro hcon
    subst hcon
    revert this
    decide
  exact (List.map_congr_left this).trans (List.map_id m)

/-- C4 counterexample: column-label normalization is not idempotent.  The
label `a b` normalizes to `a_b`, but a second application deletes the
underscore (it is outside `[a-z0-9\s]`) and yields `ab`. -/
theorem clean_column_name_not_idempotent :
    clean_column_name (clean_column_name "a b".data) ≠
      clean_column_name "a b".data := by decide

/-- C4 (amended): normalization is idempotent on every label whose normalized
form contains no underscore, i.e. whose label normalizes to a single token.
In general a second application strips the underscores inserted by the first
one, so idempotence fails on multi-token labels. -/
theorem clean_column_name_idempotent_on_single_token (l : List Char)
    (h : '_' ∉ clean_column_name l) :
    clean_column_name (clean_column_name l) = clean_column_name l := by
  refine clean_column_name_fixes_alnum fun c hc => ?_
  rcases mem_clean_column_name hc with h1 | h1
  · exact h1
  · exact absurd (h1 ▸ hc) h

/-- Witness for the amended C4 theorem at the concrete label `Hello`, which
normalizes to the single token `hello`. -/
theorem clean_column_name_idempotent_witness :
    '_' ∉ clean_column_name "Hello".data ∧
      clean_column_name (clean_column_name "Hello".data) =
        clean_column_name "Hello".data :=
  ⟨by decide, clean_column_name_idempotent_on_single_token _ (by decide)⟩

/-! Scoring engine (`calculate_category_scores`, source lines 139-165). -/

/-- Raw cell value of the survey table as seen by the scoring loop: a numeric
value, a string, or a missing value (Python `None` / pandas `NaN`). -/
inductive PyVal where
  | vNum (x : ℚ)
  | vStr (s : String)
  | vNone
deriving DecidableEq

/-- Model of `pd.notna`: false exactly on the missing value. -/
def pdNotna : PyVal → Bool
  | .vNone => false
  | _ => true

/-- Helper for the decimal-literal parser: numeric value of a digit string. -/
def digitsVal (l : List Char) : Nat :=
  l.foldl (fun a c => a * 10 + (c.toNat - 48)) 0

/-- Optional leading sign of a numeric literal. -/
def splitSign : List Char → ℚ × List Char
  | '-' :: r => (-1, r)
  | '+' :: r => (1, r)
  | r => (1, r)

/-- Model of CPython `float(s)` on decimal literals: optional surrounding
whitespace, optional sign, digits with an optional fractional part.  Exotic
representations (exponents, `inf`, `nan`, underscores) are outside the survey
data this program reads and are mapped to a parse failure. -/
def pyFloatOfChars (l : List Char) : Option ℚ :=
  let p := splitSign (pyStrip l)
  let ip := p.2.takeWhile Char.isDigit
  match p.2.dropWhile Char.isDigit with
  | [] => if ip.isEmpty then Option.none else some (p.1 * digitsVal ip)
  | '.' :: fr =>
    if (fr.dropWhile Char.isDigit).isEmpty
        && !(ip.isEmpty && (fr.takeWhile Char.isDigit).isEmpty) then
      some (p.1 * ((digitsVal ip : ℚ) +
        (digitsVal (fr.takeWhile Char.isDigit) : ℚ) /
          ((10 : ℚ) ^ (fr.takeWhile Char.isDigit).length)))
    else Option.none
  | _ => Option.none

/-- Model of `float(value)` inside the scoring loop: numbers coerce to
themselves, strings are parsed as decimal literals, and `None` raises
`TypeError` (modelled as a parse failure, which the source catches). -/
def tryFloat : PyVal → Option ℚ
  | .vNum x => some x
  | .vStr s => pyFloatOfChars s.data
  | .vNone => Option.none

/-- Model of Python `dict.get`: first binding of the key in an association
list (dictionary keys are unique, so first match is the match). -/
def alistGet {α : Type} (m : List (String × α)) (k : String) : Option α :=
  (m.find? fun p => p.1 == k).map Prod.snd

/-- Kept score contributed by one question of a category, following the body
of the inner loop of `calculate_category_scores` (source lines 146-158):
look up the original column of the cleaned question name, skip falsy column
names, fetch the cell, require it non-missing, coerce with `float`, keep it
only when it lies in the closed range `[1, 4]`. -/
def keptValue (row : List (String × PyVal)) (c2o : List (String × String))
    (q : String) : Option ℚ :=
  match alistGet c2o q with
  | Option.none => Option.none
  | some orig =>
    if orig = "" then Option.none
    else
      match alistGet row orig with
      | Option.none => Option.none
      | some v =>
        if pdNotna v then
          match tryFloat v with
          | some x => if 1 ≤ x ∧ x ≤ 4 then some x else Option.none
          | Option.none => Option.none
        else Option.none

/-- All kept scores of one category for one respondent. -/
def keptValues (row : List (String × PyVal)) (c2o : List (String × String))
    (qs : List String) : List ℚ :=
  qs.filterMap (keptValue row c2o)

/-- Model of `np.mean`. -/
def npMean (l : List ℚ) : ℚ := l.sum / l.length

/-- Embedding of `calculate_category_scores` (source lines 139-165): one
average per category, `None` when no value survived the filter. -/
def calculate_category_scores (row : List (String × PyVal))
    (cats : List (String × List String)) (c2o : List (String × String)) :
    List (String × Option ℚ) :=
  cats.map fun p =>
    (p.1, if keptValues row c2o p.2 = [] then Option.none
          else some (npMean (keptValues row c2o p.2)))

/-- Raw response of the respondent to one question of a category, following
the wording of the spec: the value reachable through the column mappings,
whether or not it is numeric. -/
def rawResponse (row : List (String × PyVal)) (c2o : List (String × String))
    (q : String) : Option PyVal :=
  match alistGet c2o q with
  | some orig => if orig = "" then Option.none else alistGet row orig
  | Option.none => Option.none

/-- Raw responses of the respondent for a whole category. -/
def rawResponses (row : List (String × PyVal)) (c2o : List (String × String))
    (qs : List String) : List PyVal :=
  qs.filterMap (rawResponse row c2o)

/-- Survivor filter in the words of the spec: a raw value survives exactly
when it coerces to a real number lying in the closed range `[1, 4]`. -/
def validScore (v : PyVal) : Option ℚ :=
  match tryFloat v with
  | some x => if 1 ≤ x ∧ x ≤ 4 then some x else Option.none
  | Option.none => Option.none

/-- Values of a category surviving the spec's filter. -/
def validScores (vals : List PyVal) : List ℚ := vals.filterMap validScore

theorem keptValue_eq_bind (row : List (String × PyVal))
    (c2o : List (String × String)) (q : String) :
    keptValue row c2o q = (rawResponse row c2o q).bind validScore := by
  unfold keptValue rawResponse
  cases alistGet c2o q with
  | none => rfl
  | some orig =>
    by_cases horig : orig = ""
    · simp [horig]
    · simp only [horig, if_false]
      cases alistGet row orig with
      | none => rfl
      | some v => cases v <;> rfl

theorem keptValues_eq (row : List (String × PyVal))
    (c2o : List (String × String)) (qs : List String) :
    keptValues row c2o qs = validScores (rawResponses row c2o qs) := by
  unfold keptValues validScores rawResponses
  rw [List.filterMap_filterMap]
  exact congrArg qs.filterMap (funext fun q => keptValue_eq_bind row c2o q)

/-- Example category mappings for the concrete instances of C1. -/
def exampleC2O : List (String × String) :=
  [("q1", "Q1"), ("q2", "Q2"), ("q3", "Q3"), ("q4", "Q4"), ("q5", "Q5")]

/-- Example respondent row with responses `[1, 2, 3, None, "bad"]`. -/
def exampleRow : List (String × PyVal) :=
  [("Q1", .vNum 1), ("Q2", .vNum 2), ("Q3", .vNum 3), ("Q4", .vNone),
   ("Q5", .vStr "bad")]

/-- Example single category over the five example questions. -/
def exampleCats : List (String × List String) :=
  [("C", ["q1", "q2", "q3", "q4", "q5"])]

/-- Example respondent row whose responses are all invalid. -/
def exampleRowBad : List (String × PyVal) :=
  [("Q1", .vNone), ("Q2", .vStr "bad")]

/-- C1: every category score is the arithmetic mean of exactly the raw
response values of that category that coerce to a number in the closed range
`[1, 4]`; invalid values are dropped (never averaged as zero) and a category
with no surviving value gets an absent score.  In particular the responses
`[1, 2, 3, None, "bad"]` score `2` and an all-invalid category scores
`None`. -/
theorem calculate_category_scores_spec :
    (∀ row cats c2o, calculate_category_scores row cats c2o =
      cats.map fun p =>
        (p.1, if validScores (rawResponses row c2o p.2) = [] then Option.none
              else some (npMean (validScores (rawResponses row c2o p.2))))) ∧
    calculate_category_scores exampleRow exampleCats exampleC2O =
      [("C", some 2)] ∧
    calculate_category_scores exampleRowBad exampleCats exampleC2O =
      [("C", Option.none)] := by
  refine ⟨fun row cats c2o => ?_, ?_, ?_⟩
  · simp only [calculate_category_scores, keptValues_eq]
  · have hk1 : keptValues exampleRow exampleC2O ["q1", "q2", "q3", "q4", "q5"] =
        [1, 2, 3] := by decide
    have hmean : npMean [(1 : ℚ), 2, 3] = 2 := by
      norm_num [npMean]
    simp only [calculate_category_scores, exampleCats, List.map_cons,
      List.map_nil]
    rw [hk1, if_neg (by decide), hmean]
  · have hk2 : keptValues exampleRowBad exampleC2O ["q1", "q2", "q3", "q4", "q5"] =
        [] := by decide
    simp only [calculate_category_scores, exampleCats, List.map_cons,
      List.map_nil]
    rw [hk2, if_pos rfl]

/-! Recommendation protocol (`generate_recommendations`, source lines
218-337).  The external chat-completion call is modelled by its outcome: a
reply string or a raised exception message. -/

/-- Substring test, model of Python `needle in haystack`. -/
def hasSubstr (needle : List Char) : List Char → Bool
  | [] => needle.isEmpty
  | c :: cs => needle.isPrefixOf (c :: cs) || hasSubstr needle cs

/-- Characters strictly before the first occurrence of `sep`; the whole list
when `sep` does not occur. -/
def takeBefore (sep : List Char) : List Char → List Char
  | [] => []
  | c :: cs => if sep.isPrefixOf (c :: cs) then [] else c :: takeBefore sep cs

/-- Characters strictly after the first occurrence of `sep`, or `none` when
`sep` does not occur. -/
def dropThrough (sep : List Char) : List Char → Option (List Char)
  | [] => Option.none
  | c :: cs =>
    if sep.isPrefixOf (c :: cs) then some (cs.drop (sep.length - 1))
    else dropThrough sep cs

theorem dropThrough_length {sep r : List Char} :
    ∀ {l : List Char}, dropThrough sep l = some r → r.length < l.length
  | [], h => by simp [dropThrough] at h
  | c :: cs, h => by
    by_cases hp : sep.isPrefixOf (c :: cs) = true
    · simp only [dropThrough, hp, if_true, Option.some.injEq] at h
      subst h
      simp only [List.length_drop, List.length_cons]
      omega
    · rw [Bool.not_eq_true] at hp
      simp only [dropThrough, hp, Bool.false_eq_true, if_false] at h
      have := dropThrough_length (l := cs) h
      simp only [List.length_cons]
      omega

/-- Fuel-indexed worker for `splitOnSub`, structurally recursive so that the
kernel can evaluate it on concrete inputs.  With fuel at least the length of
the input the fuel never runs out. -/
def splitOnSubFuel (sep : List Char) : Nat → List Char → List (List Char)
  | 0, l => [l]
  | fuel + 1, l =>
    match dropThrough sep l with
    | Option.none => [l]
    | some rest => takeBefore sep l :: splitOnSubFuel sep fuel rest

theorem splitOnSubFuel_congr (sep : List Char) (f1 : Nat) :
    ∀ (f2 : Nat) (l : List Char), l.length ≤ f1 → l.length ≤ f2 →
      splitOnSubFuel sep f1 l = splitOnSubFuel sep f2 l := by
  induction f1 using Nat.strong_induction_on with
  | _ f1 ih =>
    intro f2 l h1 h2
    match f1, f2 with
    | 0, f2 =>
      have hl : l = [] := List.eq_nil_of_length_eq_zero (Nat.le_zero.mp h1)
      subst hl
      cases f2 <;> simp [splitOnSubFuel, dropThrough]
    | f1 + 1, 0 =>
      have hl : l = [] := List.eq_nil_of_length_eq_zero (Nat.le_zero.mp h2)
      subst hl
      simp [splitOnSubFuel, dropThrough]
    | f1 + 1, f2 + 1 =>
      simp only [splitOnSubFuel]
      cases hd : dropThrough sep l with
      | none => rfl
      | some rest =>
        have hlen := dropThrough_length hd
        dsimp only
        rw [ih f1 (Nat.lt_succ_self f1) f2 rest (by omega) (by omega)]

/-- Model of Python `str.split(sep)` for a nonempty separator: the pieces
between consecutive non-overlapping occurrences of `sep`, scanned left to
right. -/
def splitOnSub (sep l : List Char) : List (List Char) :=
  splitOnSubFuel sep l.length l

theorem splitOnSub_eq (sep l : List Char) :
    splitOnSub sep l =
      match dropThrough sep l with
      | Option.none => [l]
      | some rest => takeBefore sep l :: splitOnSub sep rest := by
  unfold splitOnSub
  cases hl : l.length with
  | zero =>
    have : l = [] := List.eq_nil_of_length_eq_zero hl
    subst this
    simp [splitOnSubFuel, dropThrough]
  | succ n =>
    simp only [splitOnSubFuel]
    cases hd : dropThrough sep l with
    | none => rfl
    | some rest =>
      have := dropThrough_length hd
      dsimp only
      rw [splitOnSubFuel_congr sep n rest.length rest (by omega) (Nat.le_refl _)]

theorem takeBefore_of_dropThrough_none {sep : List Char} :
    ∀ {l : List Char}, dropThrough sep l = Option.none → takeBefore sep l = l
  | [], _ => rfl
  | c :: cs, h => by
    by_cases hp : sep.isPrefixOf (c :: cs) = true
    · simp [dropThrough, hp] at h
    · rw [Bool.not_eq_true] at hp
      simp only [dropThrough, hp, Bool.false_eq_true, if_false] at h
      simp only [takeBefore, hp, Bool.false_eq_true, if_false]
      rw [takeBefore_of_dropThrough_none h]

theorem splitOnSub_headD (sep l : List Char) :
    (splitOnSub sep l).headD [] = takeBefore sep l := by
  rw [splitOnSub_eq]
  cases hd : dropThrough sep l with
  | none => exact (takeBefore_of_dropThrough_none hd).symm
  | some rest => rfl

theorem splitOnSub_getD_one (sep l : List Char) :
    (splitOnSub sep l).getD 1 [] =
      (match dropThrough sep l with
       | Option.none => ([] : List Char)
       | some rest => takeBefore sep rest) := by
  rw [splitOnSub_eq]
  cases hd : dropThrough sep l with
  | none => rfl
  | some rest =>
    simp only [List.getD_cons_succ]
    rw [splitOnSub_eq]
    cases hd2 : dropThrough sep rest with
    | none =>
      simpa using (takeBefore_of_dropThrough_none hd2).symm
    | some rest2 => rfl

/-- Model of Python `str.replace(pat, rep)` for nonempty multi-character
patterns: every non-overlapping occurrence of `pat`, scanned left to right, is
replaced by `rep`, which is exactly joining the pieces of `split(pat)` with
`rep`. -/
def pyReplace (pat rep l : List Char) : List Char :=
  List.intercalate rep (splitOnSub pat l)

/-- Model of Python `str.split(sep)` for a single-character separator. -/
def splitOnChar (sep : Char) : List Char → List (List Char)
  | [] => [[]]
  | c :: cs =>
    if c = sep then [] :: splitOnChar sep cs
    else
      match splitOnChar sep cs with
      | [] => [[c]]
      | h :: t => (c :: h) :: t

/-- Everything after the first occurrence of the character `sep`; model of
`l.split(sep, 1)[-1]` when `sep` occurs in `l`. -/
def afterFirstChar (sep : Char) (l : List Char) : List Char :=
  (l.dropWhile fun c => c != sep).drop 1

/-- Model of the `while len(recommendations) < 4: append(filler)` loops:
append the filler until the list has at least `n` entries. -/
def padTo (n : Nat) (filler : List Char) (l : List (List Char)) :
    List (List Char) :=
  l ++ List.replicate (n - l.length) filler

/-- Result shape of the recommendation protocol: a summary and the
recommendation strings. -/
structure RecommendationResult where
  summary : List Char
  recommendations : List (List Char)
deriving DecidableEq

/-- Outcome of the external chat-completion call: a reply, or the message of
a raised exception. -/
inductive LLMOutcome where
  | ok (reply : List Char)
  | err (msg : List Char)

/-- Marker `SUMMARY:` of the structured reply format. -/
def sumMarker : List Char := "SUMMARY:".data

/-- Marker `RECOMMENDATIONS:` of the structured reply format. -/
def recMarker : List Char := "RECOMMENDATIONS:".data

/-- Filler appended in the markers branch (source line 319). -/
def fillerMarker : List Char :=
  "Continue building on the recommendations above.".data

/-- Filler appended in the no-markers branch (source line 327). -/
def fillerPlain : List Char := "Continue improving in this area.".data

/-- Fixed fallback recommendations of the service-failure branch (source
lines 332-337). -/
def fallbackRecs : List (List Char) :=
  ["Recommendation 1: Review current processes".data,
   "Recommendation 2: Identify improvement areas".data,
   "Recommendation 3: Implement best practices".data,
   "Recommendation 4: Monitor progress".data]

/-- Extraction of one recommendation from one line of the markers branch
(source lines 311-316): strip the line, require it nonempty and starting with
a digit or a dash; when the line contains a period keep what follows the
first period (stripped), otherwise strip leading dashes and spaces and
surrounding whitespace; drop the line when nothing remains. -/
def extractRecLine (raw : List Char) : Option (List Char) :=
  match pyStrip raw with
  | [] => Option.none
  | c :: rest =>
    if c.isDigit || c == '-' then
      if (c :: rest).contains '.' then
        if (pyStrip (afterFirstChar '.' (c :: rest))).isEmpty then Option.none
        else some (pyStrip (afterFirstChar '.' (c :: rest)))
      else
        if (pyStrip (pyLstripSet ['-', ' '] (c :: rest))).isEmpty then
          Option.none
        else some (pyStrip (pyLstripSet ['-', ' '] (c :: rest)))
    else Option.none

/-- Embedding of the reply parser of `generate_recommendations` (source lines
305-328): the markers branch splits at `RECOMMENDATIONS:` (the candidate text
is the piece between the first and second markers), deletes `SUMMARY:` tokens
from the part before the marker, and truncates the summary to 200 characters;
the no-markers branch takes the first line as summary and the later stripped
lines longer than 10 characters as candidates; both branches pad or truncate
the candidates to exactly 4. -/
def parseReply (result : List Char) : RecommendationResult :=
  if hasSubstr sumMarker result then
    { summary :=
        (pyStrip (pyReplace sumMarker []
          ((splitOnSub recMarker result).headD []))).take 200
      recommendations :=
        (padTo 4 fillerMarker
          ((splitOnChar '\n' ((splitOnSub recMarker result).getD 1 [])).filterMap
            extractRecLine)).take 4 }
  else
    match splitOnChar '\n' result with
    | [] =>
      { summary := "Summary generated".data
        recommendations := padTo 4 fillerPlain [] }
    | l0 :: rest =>
      { summary := l0.take 200
        recommendations :=
          padTo 4 fillerPlain
            ((rest.filterMap fun line =>
              if (pyStrip line).isEmpty then Option.none
              else if 10 < (pyStrip line).length then some (pyStrip line)
              else Option.none).take 4) }

/-- Embedding of `generate_recommendations` (source lines 292-337): parse the
reply on success, return the fixed fallback and an error-echoing summary when
the external call raises. -/
def generate_recommendations (outcome : LLMOutcome) : RecommendationResult :=
  match outcome with
  | .ok reply => parseReply reply
  | .err msg =>
    { summary := "Error: ".data ++ msg, recommendations := fallbackRecs }

theorem length_take_padTo (f : List Char) (l : List (List Char)) :
    ((padTo 4 f l).take 4).length = 4 := by
  simp only [padTo, List.length_take, List.length_append, List.length_replicate]
  omega

theorem length_padTo_take (f : List Char) (l : List (List Char)) :
    (padTo 4 f (l.take 4)).length = 4 := by
  simp only [padTo, List.length_append, List.length_replicate, List.length_take]
  omega

/-- Reply without markers containing a short first line and three non-trivial
candidate lines. -/
def noMarkerReply : List Char :=
  "Overview line\nFirst recommendation line\nSecond recommendation line\nThird recommendation line".data

/-- C2: on every outcome of the external call (well-formed reply, malformed
reply with or without markers, raised exception) the recommendation list has
length exactly 4: shorter extractions are padded with the fixed filler,
longer ones are truncated to the first 4.  In particular a marker-free reply
with three non-trivial lines yields those three lines followed by one
filler. -/
theorem generate_recommendations_length_four :
    (∀ outcome, (generate_recommendations outcome).recommendations.length = 4) ∧
    (generate_recommendations (.ok noMarkerReply)).recommendations =
      ["First recommendation line".data, "Second recommendation line".data,
       "Third recommendation line".data, fillerPlain] := by
  constructor
  · intro outcome
    cases outcome with
    | err msg => rfl
    | ok reply =>
      simp only [generate_recommendations, parseReply]
      by_cases h : hasSubstr sumMarker reply = true
      · simp only [h, if_true]
        exact length_take_padTo _ _
      · rw [Bool.not_eq_true] at h
        simp only [h, Bool.false_eq_true, if_false]
        cases splitOnChar '\n' reply with
        | nil => rfl
        | cons l0 rest =>
          exact length_padTo_take _ _
  · decide

/-- C3: a failure of the external text-generation call never escapes
`generate_recommendations`: for every exception message the function returns
the fixed four-item fallback list together with a summary echoing the
failure reason, a well-formed `RecommendationResult`. -/
theorem generate_recommendations_error_fallback :
    (∀ msg, generate_recommendations (.err msg) =
      { summary := "Error: ".data ++ msg, recommendations := fallbackRecs }) ∧
    fallbackRecs.length = 4 :=
  ⟨fun _ => rfl, rfl⟩

/-- Summary of the markers branch in the amended wording of C5: the text
before the first `RECOMMENDATIONS:` marker with every `SUMMARY:` token
deleted, stripped, truncated to 200 characters. -/
def amendedMarkerSummary (r : List Char) : List Char :=
  (pyStrip (pyReplace sumMarker [] (takeBefore recMarker r))).take 200

/-- Recommendations of the markers branch in the amended wording of C5: the
candidate text is the piece between the first and second `RECOMMENDATIONS:`
markers (everything after the marker when it occurs once); its lines pass
through the enumeration extraction and are padded and truncated to exactly
4. -/
def amendedMarkerRecs (r : List Char) : List (List Char) :=
  (padTo 4 fillerMarker
    ((splitOnChar '\n'
      (match dropThrough recMarker r with
       | Option.none => ([] : List Char)
       | some rest => takeBefore recMarker rest)).filterMap
      extractRecLine)).take 4

/-- Reply with both markers whose summary text shows that the claimed parse
rule of C5 disagrees with the code: the code also deletes the `SUMMARY:`
token from the summary. -/
def exampleMarkerReply : List Char :=
  "SUMMARY: hi\nRECOMMENDATIONS:\n1. aaa".data

/-- Summary of the markers branch in the words of claim C5: everything
before the `RECOMMENDATIONS:` marker, trimmed, truncated to 200
characters. -/
def claimedMarkerSummary (r : List Char) : List Char :=
  (pyStrip (takeBefore recMarker r)).take 200

/-- C5 counterexample: on the reply `SUMMARY: hi\nRECOMMENDATIONS:\n1. aaa`
the code produces the summary `hi`, not the claimed trimmed text before the
marker (`SUMMARY: hi`): the code additionally deletes `SUMMARY:` tokens. -/
theorem marker_summary_not_as_claimed :
    (generate_recommendations (.ok exampleMarkerReply)).summary ≠
      claimedMarkerSummary exampleMarkerReply := by decide

/-- C5 (amended): for every reply containing the `SUMMARY:` marker, the
summary is the text before the first `RECOMMENDATIONS:` marker with the
`SUMMARY:` tokens deleted, stripped and truncated to 200 characters, and the
recommendations come from the lines between the first and second
`RECOMMENDATIONS:` markers that start with a digit or a dash, each reduced
to the text after its first period (or stripped of leading dashes and
spaces when it has no period), padded with the filler and truncated to
exactly 4. -/
theorem generate_recommendations_marker_branch (r : List Char)
    (h : hasSubstr sumMarker r = true) :
    generate_recommendations (.ok r) =
      { summary := amendedMarkerSummary r
        recommendations := amendedMarkerRecs r } := by
  simp only [generate_recommendations, parseReply, h, if_true,
    amendedMarkerSummary, amendedMarkerRecs, splitOnSub_headD,
    splitOnSub_getD_one]

/-- Reply with markers and six enumerated recommendation lines. -/
def sixLineReply : List Char :=
  "SUMMARY: ok\nRECOMMENDATIONS:\n1. one one one\n2. two two two\n3. three three three\n4. four four four\n5. five five five\n6. six six six".data

/-- Witness for the amended C5 theorem: on a reply with markers and six
enumerated lines exactly the first four survive, in their original order. -/
theorem generate_recommendations_marker_branch_witness :
    generate_recommendations (.ok sixLineReply) =
      { summary := "ok".data
        recommendations := ["one one one".data, "two two two".data,
          "three three three".data, "four four four".data] } :=
  (generate_recommendations_marker_branch sixLineReply (by decide)).trans
    (by decide)

set_option maxRecDepth 8000 in
/-- C6 counterexample: on the service-failure path the summary is not
truncated; a 201-character exception message produces a summary longer than
200 characters. -/
theorem error_summary_exceeds_200 :
    200 <
      (generate_recommendations (.err (List.replicate 201 'a'))).summary.length := by
  decide

/-- C6 (amended): on the markers and no-markers parsing branches the summary
is at most 200 characters long; on the service-failure branch the summary is
the untruncated concatenation of `Error: ` and the failure reason, and can
exceed 200 characters. -/
theorem summary_bounded_on_parse_paths :
    (∀ reply, (generate_recommendations (.ok reply)).summary.length ≤ 200) ∧
    (∀ msg, (generate_recommendations (.err msg)).summary =
      "Error: ".data ++ msg) := by
  constructor
  · intro reply
    simp only [generate_recommendations, parseReply]
    by_cases h : hasSubstr sumMarker reply = true
    · simp only [h, if_true, List.length_take]
      omega
    · rw [Bool.not_eq_true] at h
      simp only [h, Bool.false_eq_true, if_false]
      cases splitOnChar '\n' reply with
      | nil => decide
      | cons l0 rest =>
        simp only [List.length_take]
        omega
  · intro msg
    rfl

/-! Template shape resolution and indicator positioning
(`find_text_boxes`, source lines 168-215, and the circle placement of
`generate_client_presentation`, source lines 598-618). -/

/-- Bounding box of a template element in the native integral unit (EMU). -/
structure Box where
  left : Int
  top : Int
  width : Int
  height : Int
deriving DecidableEq

/-- Model of Python `int(x)` on a real value: truncation toward zero. -/
def pyInt (q : ℚ) : Int := q.num.tdiv q.den

/-- Embedding of the orange-circle placement (source lines 598-618): the
fraction of the reference line given by `score / 4` fixes the target point,
and the circle is moved so its center lands there, with the final
coordinates truncated to integers. -/
def position_circle (line circle : Box) (score : ℚ) : Int × Int :=
  (pyInt ((line.left : ℚ) + (line.width : ℚ) * (score / 4) -
    (circle.width : ℚ) / 2),
   pyInt ((line.top : ℚ) + (line.height : ℚ) / 2 - (circle.height : ℚ) / 2))

/-- Horizontal target of the indicator in the words of the spec. -/
def targetX (line : Box) (score : ℚ) : ℚ :=
  (line.left : ℚ) + (line.width : ℚ) * (score / 4)

/-- Vertical target of the indicator in the words of the spec. -/
def targetY (line : Box) : ℚ := (line.top : ℚ) + (line.height : ℚ) / 2

/-- C7: for every reference line, indicator size and score in `[0, 4]` the
indicator is placed so that its center lands on the target point
`(line.left + line.width * score/4, line.top + line.height/2)`, that is at
`(target_x - width/2, target_y - height/2)`, with integral coordinates. -/
theorem position_circle_spec (line circle : Box) (score : ℚ)
    (h0 : 0 ≤ score) (h4 : score ≤ 4) :
    position_circle line circle score =
      (pyInt (targetX line score - (circle.width : ℚ) / 2),
       pyInt (targetY line - (circle.height : ℚ) / 2)) := rfl

/-- Witness for C7 at the concrete instance of the spec: reference line
`{left 100, top 50, width 400, height 10}`, score `2`, indicator `20 × 20`
lands at `(290, 45)`. -/
theorem position_circle_witness :
    (0 : ℚ) ≤ 2 ∧ (2 : ℚ) ≤ 4 ∧
      position_circle ⟨100, 50, 400, 10⟩ ⟨0, 0, 20, 20⟩ 2 = (290, 45) := by
  refine ⟨by norm_num, by norm_num, ?_⟩
  rw [position_circle_spec ⟨100, 50, 400, 10⟩ ⟨0, 0, 20, 20⟩ 2 (by norm_num)
    (by norm_num)]
  norm_num [targetX, targetY, pyInt]

/-- Visual element of a template slide as seen by `find_text_boxes`: the
capability flags model the `hasattr` checks of the source, `fillOk` models a
fill-type query that does not raise (a raising query is caught and treated
as not a candidate). -/
structure Shape where
  hasText : Bool
  text : String
  hasShapeType : Bool
  shapeType : Int
  left : Int
  top : Int
  width : Int
  height : Int
  fillOk : Bool
  fillType : Int
deriving DecidableEq

/-- Element roles resolved on one slide (source lines 170-175). -/
structure SlideElements where
  score : Option Shape
  recommendations : Option Shape
  orange_circle : Option Shape
  line : Option Shape
deriving DecidableEq

/-- Line-type test of the source: `shape.shape_type == 9`. -/
def isLineShape (s : Shape) : Bool := s.hasShapeType && (s.shapeType == 9)

/-- Circle-candidate test of the source (lines 194-203): auto-shape type 1,
near-square bounding box (relative width/height difference below 20%), and a
successful solid-fill check.  The aspect test divides in `ℚ`, where division
by zero yields 0; in the source a zero-sized shape would raise instead, a
case no template element exercises. -/
def isCircleCandidate (s : Shape) : Bool :=
  s.hasShapeType && (s.shapeType == 1) &&
    decide ((|(s.width : ℚ) - (s.height : ℚ)| /
      (max (s.width : ℚ) (s.height : ℚ))) < 1 / 5) &&
    s.fillOk && (s.fillType == 1)

/-- First pass of `find_text_boxes` (source lines 178-185): first text
element containing `Your score` and first text element containing
`Recommendation 1`; an element can fill only one role per pass. -/
def scanLabels : List Shape → Option Shape → Option Shape →
    Option Shape × Option Shape
  | [], sc, rc => (sc, rc)
  | s :: rest, sc, rc =>
    if s.hasText then
      if hasSubstr "Your score".data (pyStrip s.text.data) && sc.isNone then
        scanLabels rest (some s) rc
      else if hasSubstr "Recommendation 1".data (pyStrip s.text.data)
          && rc.isNone then
        scanLabels rest sc (some s)
      else scanLabels rest sc rc
    else scanLabels rest sc rc

/-- Model of Python `max(xs, key)` on a nonempty list: the first element with
the maximal key (later elements replace the best one only when strictly
greater). -/
def pyMaxBy (key : Shape → Int) : List Shape → Option Shape
  | [] => Option.none
  | x :: xs =>
    some (xs.foldl (fun best y => if key best < key y then y else best) x)

/-- Model of Python `min(xs, key)` on a nonempty list: the first element with
the minimal key. -/
def pyMinBy (key : Shape → ℚ) : List Shape → Option Shape
  | [] => Option.none
  | x :: xs =>
    some (xs.foldl (fun best y => if key y < key best then y else best) x)

/-- Circle choice of `find_text_boxes` (source lines 208-213): with a
reference line present, the candidate whose vertical center is closest to the
line's vertical center; otherwise the first candidate. -/
def chooseCircle (circles : List Shape) (lineEl : Option Shape) :
    Option Shape :=
  match lineEl with
  | some ln =>
    if circles.isEmpty then Option.none
    else
      pyMinBy (fun c => |((c.top : ℚ) + (c.height : ℚ) / 2) -
        ((ln.top : ℚ) + (ln.height : ℚ) / 2)|) circles
  | Option.none => circles.head?

/-- Embedding of `find_text_boxes` (source lines 168-215).  The reference
line is the line-type element of maximal width (the key
`l.width if hasattr(l, 'width') else 0` of the source, with the width always
exposed in this model). -/
def find_text_boxes (shapes : List Shape) : SlideElements :=
  { score := (scanLabels shapes Option.none Option.none).1
    recommendations := (scanLabels shapes Option.none Option.none).2
    orange_circle := chooseCircle (shapes.filter isCircleCandidate)
      (pyMaxBy (fun s => s.width) (shapes.filter isLineShape))
    line := pyMaxBy (fun s => s.width) (shapes.filter isLineShape) }

theorem foldl_max_spec (key : Shape → Int) :
    ∀ (xs : List Shape) (a : Shape),
      (xs.foldl (fun best y => if key best < key y then y else best) a) ∈
          a :: xs ∧
        key a ≤ key (xs.foldl (fun best y => if key best < key y then y
          else best) a) ∧
        ∀ y ∈ xs, key y ≤ key (xs.foldl (fun best y => if key best < key y
          then y else best) a)
  | [], a => ⟨List.mem_cons_self a [], Int.le_refl _, fun y hy => by
      simp at hy⟩
  | y :: ys, a => by
    simp only [List.foldl_cons]
    by_cases hlt : key a < key y
    · rw [if_pos hlt]
      obtain ⟨hmem, hle, hall⟩ := foldl_max_spec key ys y
      refine ⟨List.mem_cons_of_mem a hmem, by omega, ?_⟩
      intro z hz
      rcases List.mem_cons.mp hz with h1 | h1
      · subst h1; exact hle
      · exact hall z h1
    · rw [if_neg hlt]
      obtain ⟨hmem, hle, hall⟩ := foldl_max_spec key ys a
      refine ⟨?_, hle, ?_⟩
      · rcases List.mem_cons.mp hmem with h1 | h1
        · rw [h1]; exact List.mem_cons_self a (y :: ys)
        · exact List.mem_cons_of_mem _ (List.mem_cons_of_mem _ h1)
      · intro z hz
        rcases List.mem_cons.mp hz with h1 | h1
        · subst h1; omega
        · exact hall z h1

/-- C8: whenever a slide holds at least one line-type element the resolver
returns a reference line that is a line-type element of the slide whose
width (the extent compared by the source) is maximal among all line-type
elements; on a slide holding exactly two line-type elements the wider one is
selected. -/
theorem find_text_boxes_selects_widest_line :
    (∀ shapes : List Shape, shapes.filter isLineShape ≠ [] →
      ∃ l, (find_text_boxes shapes).line = some l ∧
        l ∈ shapes.filter isLineShape ∧
        ∀ y ∈ shapes.filter isLineShape, y.width ≤ l.width) ∧
    (∀ a b : Shape, isLineShape a = true → isLineShape b = true →
      a.width < b.width → (find_text_boxes [a, b]).line = some b) := by
  constructor
  · intro shapes hne
    cases hfilter : shapes.filter isLineShape with
    | nil => exact absurd hfilter hne
    | cons x xs =>
      obtain ⟨hmem, hxle, hall⟩ := foldl_max_spec (fun s => s.width) xs x
      refine ⟨xs.foldl (fun best y => if best.width < y.width then y
        else best) x, ?_, ?_, ?_⟩
      · show pyMaxBy (fun s => s.width) (shapes.filter isLineShape) = _
        rw [hfilter]
        rfl
      · exact hmem
      · intro y hy
        rcases List.mem_cons.mp hy with h1 | h1
        · subst h1
          exact hxle
        · exact hall y h1
  · intro a b ha hb hlt
    show pyMaxBy (fun s => s.width) ([a, b].filter isLineShape) = some b
    rw [show [a, b].filter isLineShape = [a, b] by simp [ha, hb]]
    simp [pyMaxBy, hlt]

/-- Concrete line-type element of width 100. -/
def lineShapeA : Shape :=
  { hasText := false, text := "", hasShapeType := true, shapeType := 9,
    left := 0, top := 0, width := 100, height := 0, fillOk := false,
    fillType := 0 }

/-- Concrete line-type element of width 400. -/
def lineShapeB : Shape :=
  { hasText := false, text := "", hasShapeType := true, shapeType := 9,
    left := 0, top := 60, width := 400, height := 0, fillOk := false,
    fillType := 0 }

/-- Witness for C8: on a slide with two line-type elements of widths 100 and
400 the resolver selects the wider one. -/
theorem find_text_boxes_selects_widest_line_witness :
    (find_text_boxes [lineShapeA, lineShapeB]).line = some lineShapeB :=
  find_text_boxes_selects_widest_line.2 lineShapeA lineShapeB (by decide)
    (by decide) (by decide)

/-! Deterministic filename rule (`email_to_filename`, source lines 363-366)
and the idempotency check of the orchestrator (`main`, source lines
671-690). -/

/-- Embedding of `email_to_filename`: replace `@` by `_at_` and `.` by `_`,
then append the fixed report suffix. -/
def email_to_filename (email : List Char) : List Char :=
  replaceChar '.' ['_'] (replaceChar '@' "_at_".data email) ++
    "_Maturity_Assessment.pptx".data

theorem mem_replaceChar {c old : Char} {new l : List Char}
    (h : c ∈ replaceChar old new l) : c ∈ new ∨ c ∈ l := by
  unfold replaceChar at h
  rw [List.mem_flatMap] at h
  obtain ⟨a, ha, hc⟩ := h
  by_cases hao : a = old
  · rw [if_pos hao] at hc
    exact Or.inl hc
  · rw [if_neg hao] at hc
    rw [List.mem_singleton] at hc
    exact Or.inr (hc ▸ ha)

theorem replaceChar_at_inj :
    ∀ {l1 l2 : List Char}, '_' ∉ l1 → '_' ∉ l2 →
      replaceChar '@' "_at_".data l1 = replaceChar '@' "_at_".data l2 →
      l1 = l2
  | [], [], _, _, _ => rfl
  | [], c :: cs, _, _, h => by
    simp only [replaceChar, List.flatMap_nil, List.flatMap_cons] at h
    by_cases hc : c = '@' <;> simp [hc] at h
  | c :: cs, [], _, _, h => by
    simp only [replaceChar, List.flatMap_nil, List.flatMap_cons] at h
    by_cases hc : c = '@' <;> simp [hc] at h
  | c1 :: cs1, c2 :: cs2, hu1, hu2, h => by
    have hu1t : '_' ∉ cs1 := fun hm => hu1 (List.mem_cons_of_mem _ hm)
    have hu2t : '_' ∉ cs2 := fun hm => hu2 (List.mem_cons_of_mem _ hm)
    simp only [replaceChar, List.flatMap_cons] at h
    by_cases h1 : c1 = '@' <;> by_cases h2 : c2 = '@'
    · subst h1; subst h2
      rw [if_pos rfl] at h
      have htail : replaceChar '@' "_at_".data cs1 =
          replaceChar '@' "_at_".data cs2 := List.append_cancel_left h
      rw [replaceChar_at_inj hu1t hu2t htail]
    · exfalso
      rw [if_pos h1, if_neg h2] at h
      have : '_' = c2 := by
        have := congrArg (fun l => l.headD ' ') h
        simpa using this
      exact hu2 (this ▸ List.mem_cons_self c2 cs2)
    · exfalso
      rw [if_neg h1, if_pos h2] at h
      have : c1 = '_' := by
        have := congrArg (fun l => l.headD ' ') h
        simpa using this
      exact hu1 (this ▸ List.mem_cons_self c1 cs1)
    · rw [if_neg h1, if_neg h2] at h
      rw [List.cons_append, List.cons_append, List.nil_append,
        List.nil_append] at h
      have hhead : c1 = c2 := (List.cons.injEq _ _ _ _ ▸ h).1
      have htail := (List.cons.injEq _ _ _ _ ▸ h).2
      rw [hhead]
      exact congrArg _ (replaceChar_at_inj hu1t hu2t htail)

/-- C10 counterexample: the identity-to-filename transform is not injective;
the distinct identities `a.b` and `a_b` map to the same filename. -/
theorem email_to_filename_not_injective :
    email_to_filename "a.b".data = email_to_filename "a_b".data ∧
      "a.b".data ≠ "a_b".data := by decide

/-- C10 (amended): the transform is deterministic, but two distinct
identities can map to the same filename (for example `a.b` and `a_b`), so it
is not reversible in general; it is injective on identities that contain
neither `_` nor `.`, where the identity can be recovered from the generated
filename. -/
theorem email_to_filename_injective_no_special (e1 e2 : List Char)
    (h1u : '_' ∉ e1) (h1d : '.' ∉ e1) (h2u : '_' ∉ e2) (h2d : '.' ∉ e2)
    (heq : email_to_filename e1 = email_to_filename e2) : e1 = e2 := by
  unfold email_to_filename at heq
  have hcancel := List.append_cancel_right heq
  have hd1 : ∀ c ∈ replaceChar '@' "_at_".data e1, c ≠ '.' := by
    intro c hc hcon
    subst hcon
    rcases mem_replaceChar hc with h | h
    · revert h; decide
    · exact h1d h
  have hd2 : ∀ c ∈ replaceChar '@' "_at_".data e2, c ≠ '.' := by
    intro c hc hcon
    subst hcon
    rcases mem_replaceChar hc with h | h
    · revert h; decide
    · exact h2d h
  rw [replaceChar_eq_self hd1, replaceChar_eq_self hd2] at hcancel
  exact replaceChar_at_inj h1u h2u hcancel

/-- Witness for the amended C10 theorem at the concrete identity `a@b`,
which contains neither `_` nor `.`. -/
theorem email_to_filename_injective_witness :
    ('_' ∉ "a@b".data) ∧ ('.' ∉ "a@b".data) ∧ "a@b".data = "a@b".data :=
  ⟨by decide, by decide,
    email_to_filename_injective_no_special "a@b".data "a@b".data (by decide)
      (by decide) (by decide) (by decide) rfl⟩

/-- Observable effect of the presentation loop of `main` for one respondent:
the skip message of the existing-file branch, a text-generation call, a
template-element mutation, a document save, or the error print of the
per-respondent exception handler. -/
inductive OrchEvent where
  | skipMsg (email : List Char)
  | llmCall (email category : List Char)
  | docMutation (email : List Char)
  | docSave (path : List Char)
  | errMsg (email : List Char)
deriving DecidableEq

/-- Events that touch the document or the generation service. -/
def isEffectful : OrchEvent → Bool
  | .llmCall _ _ => true
  | .docMutation _ => true
  | .docSave _ => true
  | _ => false

/-- Model of the per-respondent branch of `main` (source lines 671-690):
before anything else the deterministic output path is checked; when the file
exists the branch only prints the skip message and continues, otherwise
`generate_client_presentation` runs, whose effect trace (generation calls,
element mutations, the save, or the error print) is abstracted by the
parameter `gen`. -/
def respondentStep (ex : List Char → Bool) (gen : List Char → List OrchEvent)
    (email : List Char) : List OrchEvent :=
  if ex ("output/".data ++ email_to_filename email) then
    [OrchEvent.skipMsg email]
  else gen email

/-- Effect trace of the sequential presentation loop of `main` over the
respondent list. -/
def mainTrace (ex : List Char → Bool) (gen : List Char → List OrchEvent)
    (emails : List (List Char)) : List OrchEvent :=
  (emails.map (respondentStep ex gen)).flatten

/-- C9: a respondent whose output file of the deterministic name already
exists is skipped entirely: the trace of the run splits around that
respondent, whose own segment is exactly the skip message — zero document
mutations and zero generation-service calls, with the remaining respondents
processed unchanged. -/
theorem main_skips_existing (ex : List Char → Bool)
    (gen : List Char → List OrchEvent) (pre post : List (List Char))
    (e : List Char)
    (h : ex ("output/".data ++ email_to_filename e) = true) :
    mainTrace ex gen (pre ++ e :: post) =
      mainTrace ex gen pre ++ [OrchEvent.skipMsg e] ++
        mainTrace ex gen post ∧
    respondentStep ex gen e = [OrchEvent.skipMsg e] ∧
    ∀ ev ∈ respondentStep ex gen e, isEffectful ev = false := by
  have hstep : respondentStep ex gen e = [OrchEvent.skipMsg e] := by
    unfold respondentStep
    rw [if_pos h]
  refine ⟨?_, hstep, ?_⟩
  · unfold mainTrace
    rw [List.map_append, List.map_cons, List.flatten_append,
      List.flatten_cons, hstep, ← List.append_assoc]
  · intro ev hev
    rw [hstep, List.mem_singleton] at hev
    subst hev
    rfl

/-- Concrete existence check resolving to true exactly on the output path of
the respondent `a@b`. -/
def exampleExists : List Char → Bool :=
  fun p => p == "output/a_at_b_Maturity_Assessment.pptx".data

/-- Concrete effect trace of an unskipped generation run. -/
def exampleGen : List Char → List OrchEvent :=
  fun e => [OrchEvent.llmCall e "Tech & Data".data,
    OrchEvent.docMutation e,
    OrchEvent.docSave ("output/".data ++ email_to_filename e)]

/-- Witness for C9 at a single-respondent run whose output file already
exists. -/
theorem main_skips_existing_witness :
    mainTrace exampleExists exampleGen ([] ++ "a@b".data :: []) =
      mainTrace exampleExists exampleGen [] ++
        [OrchEvent.skipMsg "a@b".data] ++
        mainTrace exampleExists exampleGen [] ∧
    respondentStep exampleExists exampleGen "a@b".data =
      [OrchEvent.skipMsg "a@b".data] ∧
    ∀ ev ∈ respondentStep exampleExists exampleGen "a@b".data,
      isEffectful ev = false :=
  main_skips_existing exampleExists exampleGen [] [] "a@b".data (by decide)
